import Mathlib

/-!
Verification of the `wasm-game-of-life` repository: a toroidal Conway
Game-of-Life grid engine (Rust/WASM, exposed as `Universe`) driven by a
JavaScript render/control loop (`www/index.js`).

The engine itself (constructor, `tick`, `toggle_cell`, `clear`, accessors)
lives in the Rust crate, which is not part of the checked-out sources here;
only the JavaScript caller is.  The engine is therefore modelled from the
specification (each such definition says so in its doc comment).  The
JavaScript frontend (click handler, speed slider, render loop pacing,
cell painting) is embedded directly from `www/index.js`.
-/

namespace GoL

/-- Modelled from the spec: `Cell` is a two-valued enumeration `Dead` / `Alive`,
represented as a byte (`Dead = 0`, `Alive = 1`). -/
inductive Cell where
  | Dead  : Cell
  | Alive : Cell
deriving DecidableEq, Repr

/-- Modelled from the spec: the grid owns immutable dimensions and a contiguous
row-major buffer of `width * height` cells (`index(row, col) = row * width + col`).
The Rust `Universe` struct is not in the checked-out sources. -/
structure Universe where
  width  : Nat
  height : Nat
  cells  : List Cell
deriving DecidableEq, Repr

/-- Row-major index, as in the spec and as in `getIndex` of `www/index.js`:
`index(row, col) = row * width + col`. -/
def Universe.getIndex (u : Universe) (row col : Nat) : Nat :=
  row * u.width + col

/-- The cell stored at `(row, col)`; out-of-range reads default to `Dead`
(they never occur at in-range coordinates on a well-formed grid). -/
def Universe.cellAt (u : Universe) (row col : Nat) : Cell :=
  u.cells.getD (u.getIndex row col) Cell.Dead

/-- Modelled from the spec: the 8 neighbor offsets `row±1, col±1`
(mod height, mod width), written with the usual nonnegative wrap offsets
`−1 ≡ dim − 1`.  The pair `(0, 0)` (the cell itself) is excluded. -/
def Universe.neighborDeltas (u : Universe) : List (Nat × Nat) :=
  [(u.height - 1, u.width - 1), (u.height - 1, 0), (u.height - 1, 1),
   (0,            u.width - 1),                    (0,            1),
   (1,            u.width - 1), (1,            0), (1,            1)]

/-- Modelled from the spec: count live neighbors among the 8 positions at
`row±1, col±1` (mod height, mod width respectively) — wraparound is the
universal neighbor rule, not an edge case. -/
def Universe.live_neighbor_count (u : Universe) (row col : Nat) : Nat :=
  (u.neighborDeltas).countP fun d =>
    u.cellAt ((row + d.1) % u.height) ((col + d.2) % u.width) == Cell.Alive

/-- Modelled from the spec: the transition rule.  A live cell with 2 or 3 live
neighbors stays alive; with fewer than 2 or more than 3 it dies.  A dead cell
with exactly 3 live neighbors becomes alive; otherwise it stays dead. -/
def next_cell : Cell → Nat → Cell
  | Cell.Alive, n => if n < 2 then Cell.Dead else if 3 < n then Cell.Dead else Cell.Alive
  | Cell.Dead,  n => if n = 3 then Cell.Alive else Cell.Dead

/-- Modelled from the spec: `tick()` as the double-buffered implementation the
spec prescribes — a fresh generation buffer starts as a copy of the current
cells and each index is overwritten in row-major order with the rule applied
to the OLD snapshot `u` (neighbor counts always read `u`, never the buffer
under construction). -/
def Universe.tick (u : Universe) : Universe :=
  let next :=
    (List.range (u.width * u.height)).foldl
      (fun next idx =>
        next.set idx
          (next_cell (u.cellAt (idx / u.width) (idx % u.width))
            (u.live_neighbor_count (idx / u.width) (idx % u.width))))
      u.cells
  { u with cells := next }

/-- Reference snapshot semantics, following the spec's words: tick is a pure
function of generation N producing generation N+1, every cell computed from
the complete pre-tick snapshot. -/
def Universe.tickPure (u : Universe) : Universe :=
  let next :=
    (List.range (u.width * u.height)).map fun idx =>
      next_cell (u.cellAt (idx / u.width) (idx % u.width))
        (u.live_neighbor_count (idx / u.width) (idx % u.width))
  { u with cells := next }

/-- Modelled from the spec: `clear()` sets every cell to `Dead`. -/
def Universe.clear (u : Universe) : Universe :=
  { u with cells := List.replicate (u.width * u.height) Cell.Dead }

/-- Modelled from the spec: the error taxonomy of the engine. -/
inductive GolError where
  | InvalidDimensions  : GolError
  | IndexOutOfBounds   : GolError
deriving DecidableEq, Repr

/-- Flip a single cell between `Dead` and `Alive`. -/
def Cell.toggled : Cell → Cell
  | Cell.Dead  => Cell.Alive
  | Cell.Alive => Cell.Dead

/-- Modelled from the spec: `toggle_cell(row, col)` flips one cell; with
`row ≥ height` or `col ≥ width` it fails with `IndexOutOfBounds` and leaves
the grid unmodified.  The pair returned is (call result, grid afterwards). -/
def Universe.toggle_cell (u : Universe) (row col : Nat) :
    Except GolError Unit × Universe :=
  if row < u.height ∧ col < u.width then
    (Except.ok (),
      { u with cells := u.cells.set (u.getIndex row col) (u.cellAt row col).toggled })
  else
    (Except.error GolError.IndexOutOfBounds, u)

/-- The transition rule exactly as claim C1 words it: a live cell with
exactly 2 or 3 live neighbors stays alive, a live cell with fewer than 2 or
more than 3 live neighbors becomes dead, a dead cell with exactly 3 live
neighbors becomes alive, and every other cell keeps its current state. -/
def standardRule (c : Cell) (n : Nat) : Cell :=
  if c = Cell.Alive ∧ (n = 2 ∨ n = 3) then Cell.Alive
  else if c = Cell.Alive ∧ (n < 2 ∨ 3 < n) then Cell.Dead
  else if c = Cell.Dead ∧ n = 3 then Cell.Alive
  else c

/-- A 5×5 grid holding a horizontal 3-cell blinker in its middle row
(live cells at (2,1), (2,2), (2,3)). -/
def blinkerH : Universe :=
  ⟨5, 5, ((List.replicate 25 Cell.Dead).set 11 Cell.Alive
            |>.set 12 Cell.Alive |>.set 13 Cell.Alive)⟩

/-- The same blinker turned vertical (live cells at (1,2), (2,2), (3,2)). -/
def blinkerV : Universe :=
  ⟨5, 5, ((List.replicate 25 Cell.Dead).set 7 Cell.Alive
            |>.set 12 Cell.Alive |>.set 17 Cell.Alive)⟩

/-- A 4×4 grid whose only live cell sits in the far corner (3, 3) —
used to exhibit toroidal wraparound as seen from (0, 0). -/
def cornerU : Universe :=
  ⟨4, 4, (List.replicate 16 Cell.Dead).set 15 Cell.Alive⟩

/-- The 8 neighbor positions of claim C2, written with mathematical integer
arithmetic: `(row ± 1 mod height, col ± 1 mod width)` over `Int.emod`. -/
def neighborPositionsInt (u : Universe) (row col : Nat) : List (Nat × Nat) :=
  ([(-1, -1), (-1, 0), (-1, 1), (0, -1), (0, 1), (1, -1), (1, 0), (1, 1)] :
      List (Int × Int)).map fun d =>
    ((((row : Int) + d.1) % (u.height : Int)).toNat,
     (((col : Int) + d.2) % (u.width : Int)).toNat)

/-! ### The JavaScript frontend (`src/www/index.js`), embedded from source -/

/-- `CELL_SIZE` constant of `www/index.js` (pixels per cell). -/
def CELL_SIZE : Nat := 5

/-- `MAX_SPEED` constant of `www/index.js`. -/
def MAX_SPEED : ℚ := 500

/-- The delay the slider input handler stores (`www/index.js`:
`speed = MAX_SPEED - slider.value`); `renderLoop` then awaits
`sleep(speed)` between ticks.  JS numbers are modelled as rationals. -/
def speedOf (sliderValue : ℚ) : ℚ :=
  MAX_SPEED - sliderValue

/-- The canvas click handler's row computation (`www/index.js`):
`Math.min(Math.floor(canvasTop / (CELL_SIZE + 1)), height - 1)`, where
`canvasTop` is the click's canvas-pixel y coordinate.  `Math.floor` is
`Int.floor`; `height - 1` is integer subtraction. -/
def clickRow (height : Nat) (canvasTop : ℚ) : Int :=
  min ⌊canvasTop / ((CELL_SIZE : ℚ) + 1)⌋ ((height : Int) - 1)

/-- The canvas click handler's column computation (`www/index.js`):
`Math.min(Math.floor(canvasLeft / (CELL_SIZE + 1)), width - 1)`. -/
def clickCol (width : Nat) (canvasLeft : ℚ) : Int :=
  min ⌊canvasLeft / ((CELL_SIZE : ℚ) + 1)⌋ ((width : Int) - 1)

/-- Byte value of the wasm-bindgen `Cell.Dead` constant read by the JS
renderer (`Dead = 0` per the data model). -/
def cellDeadCode : Nat := 0

/-- Byte value of the wasm-bindgen `Cell.Alive` constant (`Alive = 1`). -/
def cellAliveCode : Nat := 1

/-- The fills performed by one `paintCells(colour, cellState, cells)` pass
(`www/index.js`): loop rows, then columns; fill the rectangle of
`(row, col)` exactly when `cells[getIndex(row, col)] === cellState`.
A fill is recorded by its `(row, col)` cell; the actual rectangle corner
`(col*(CELL_SIZE+1)+1, row*(CELL_SIZE+1)+1)` is an injective image of it.
The buffer is a raw `Uint8Array`, so entries are plain numbers. -/
def paintCellsFills (cellState : Nat) (cells : List Nat) (height width : Nat) :
    List (Nat × Nat) :=
  (List.range height).flatMap fun row =>
    (List.range width).filterMap fun col =>
      if cells[row * width + col]? == some cellState then some (row, col) else none

/-- One `drawCells()` redraw (`www/index.js`): the dead-color pass followed
by the alive-color pass. -/
def drawCellsFills (cells : List Nat) (height width : Nat) : List (Nat × Nat) :=
  paintCellsFills cellDeadCode cells height width
    ++ paintCellsFills cellAliveCode cells height width

/-- State of the render/control loop of `www/index.js`, as seen by the
browser's single-threaded event loop: the `paused` flag, the last
`animationId` stored (or `none`), the set of requestAnimationFrame
callbacks currently queued (by id, in registration order), the number of
pending `sleep` continuations of suspended `renderLoop` calls, the next
fresh rAF id, and how many times `universe.tick()` has run. -/
structure LoopState where
  paused : Bool
  animationId : Option Nat
  rafQueue : List Nat
  sleepers : Nat
  nextId : Nat
  ticks : Nat
deriving DecidableEq, Repr

/-- The synchronous prefix of `renderLoop` (`www/index.js`): it calls
`universe.tick()`, redraws, and suspends at `await sleep(speed)`, leaving
one more pending sleep continuation. -/
def renderLoopStart (s : LoopState) : LoopState :=
  { s with ticks := s.ticks + 1, sleepers := s.sleepers + 1 }

/-- The atomic turns the event loop can run: a click on the play/pause
button, the resolution of one pending `sleep`, or the firing of a queued
requestAnimationFrame callback with id `i`. -/
inductive LoopEvent where
  | buttonClick : LoopEvent
  | sleepDone   : LoopEvent
  | rafFire     : Nat → LoopEvent
deriving DecidableEq, Repr

/-- One event-loop turn of `www/index.js`, `none` when the event is not
enabled.  `buttonClick` dispatches on `isPaused()` (`animationId === null`):
`play()` clears `paused` and synchronously runs the `renderLoop` prefix;
`pause()` sets `paused`, calls `cancelAnimationFrame(animationId)` (which
removes only that id from the queue) and nulls `animationId`.  A resolved
`sleep` re-schedules via `requestAnimationFrame` only when `paused` is
still false, storing the fresh id in `animationId`.  A firing rAF callback
leaves the queue and runs the `renderLoop` prefix (which ticks
unconditionally). -/
def stepEvent (s : LoopState) : LoopEvent → Option LoopState
  | LoopEvent.buttonClick =>
      match s.animationId with
      | none => some (renderLoopStart { s with paused := false })
      | some i =>
          some { s with paused := true, rafQueue := s.rafQueue.erase i,
                        animationId := none }
  | LoopEvent.sleepDone =>
      if s.sleepers = 0 then none
      else
        let s' := { s with sleepers := s.sleepers - 1 }
        if s'.paused then some s'
        else
          some { s' with rafQueue := s'.rafQueue ++ [s'.nextId],
                         animationId := some s'.nextId, nextId := s'.nextId + 1 }
  | LoopEvent.rafFire i =>
      if i ∈ s.rafQueue then
        some (renderLoopStart { s with rafQueue := s.rafQueue.erase i })
      else none

/-- The state after the bottom of `www/index.js` runs: `paused = false`,
`animationId = null`, and `play()` has synchronously run the `renderLoop`
prefix once (one tick done, one sleep pending). -/
def initLoopState : LoopState :=
  renderLoopStart (LoopState.mk false none [] 0 0 0)

/-- Run a sequence of event-loop turns. -/
def runEvents (s : LoopState) (es : List LoopEvent) : Option LoopState :=
  es.foldlM stepEvent s

/-! ### Basic facts about the engine model -/

lemma tick_width (u : Universe) : u.tick.width = u.width := rfl

lemma tick_height (u : Universe) : u.tick.height = u.height := rfl

lemma tickPure_cells (u : Universe) :
    u.tickPure.cells
      = (List.range (u.width * u.height)).map fun idx =>
          next_cell (u.cellAt (idx / u.width) (idx % u.width))
            (u.live_neighbor_count (idx / u.width) (idx % u.width)) := rfl

/-- Writing `f i` sequentially into every slot `i < n` of a buffer of length
at least `n` produces the same buffer as mapping `f` over the index range
(followed by the untouched tail). -/
lemma foldl_set_range_eq_map (f : Nat → Cell) :
    ∀ (n : Nat) (l : List Cell), n ≤ l.length →
      (List.range n).foldl (fun acc i => acc.set i (f i)) l
        = (List.range n).map f ++ l.drop n := by
  intro n
  induction n with
  | zero => intro l _; simp
  | succ n ih =>
    intro l hl
    have hn : n < l.length := Nat.lt_of_succ_le hl
    rw [List.range_succ, List.foldl_append, ih l (Nat.le_of_succ_le hl)]
    simp only [List.foldl_cons, List.foldl_nil, List.map_append, List.map_cons,
      List.map_nil]
    rw [List.set_append_right _ _ (by simp)]
    simp only [List.length_map, List.length_range, Nat.sub_self]
    rw [List.drop_eq_getElem_cons hn, List.set_cons_zero]
    simp

/-- The double-buffered `tick` loop agrees with the pure snapshot semantics
`tickPure` on every well-formed grid (buffer length = width · height). -/
lemma tick_eq_tickPure (u : Universe) (h : u.cells.length = u.width * u.height) :
    u.tick = u.tickPure := by
  unfold Universe.tick Universe.tickPure
  simp only
  rw [foldl_set_range_eq_map _ _ _ (le_of_eq h.symm)]
  rw [List.drop_eq_nil_of_le (le_of_eq h)]
  simp

lemma getIndex_lt_size (u : Universe) {row col : Nat}
    (hr : row < u.height) (hc : col < u.width) :
    u.getIndex row col < u.width * u.height := by
  unfold Universe.getIndex
  calc row * u.width + col < row * u.width + u.width := Nat.add_lt_add_left hc _
    _ = (row + 1) * u.width := by ring
    _ ≤ u.height * u.width := Nat.mul_le_mul_right _ hr
    _ = u.width * u.height := Nat.mul_comm _ _

lemma getIndex_div (u : Universe) {col : Nat} (row : Nat) (hc : col < u.width) :
    u.getIndex row col / u.width = row := by
  have hw : 0 < u.width := Nat.lt_of_le_of_lt (Nat.zero_le _) hc
  unfold Universe.getIndex
  rw [Nat.mul_comm row u.width, Nat.mul_add_div hw, Nat.div_eq_of_lt hc, Nat.add_zero]

lemma getIndex_mod (u : Universe) {col : Nat} (row : Nat) (hc : col < u.width) :
    u.getIndex row col % u.width = col := by
  unfold Universe.getIndex
  rw [Nat.mul_comm row u.width, Nat.mul_add_mod, Nat.mod_eq_of_lt hc]

/-- On a well-formed grid, the cell `tickPure` puts at in-range `(row, col)`
is the transition rule applied to the old cell and its old neighbor count. -/
lemma cellAt_tickPure (u : Universe) {row col : Nat}
    (hr : row < u.height) (hc : col < u.width) :
    u.tickPure.cellAt row col
      = next_cell (u.cellAt row col) (u.live_neighbor_count row col) := by
  have hidx := getIndex_lt_size u hr hc
  show (u.tickPure.cells).getD (u.tickPure.getIndex row col) Cell.Dead = _
  have hgi : u.tickPure.getIndex row col = u.getIndex row col := rfl
  rw [hgi, tickPure_cells, List.getD_eq_getElem?_getD, List.getElem?_map,
    List.getElem?_range hidx]
  simp only [Option.map_some', Option.getD_some]
  rw [getIndex_div u row hc, getIndex_mod u row hc]

lemma next_cell_eq_standardRule (c : Cell) (n : Nat) :
    next_cell c n = standardRule c n := by
  cases c <;> simp only [next_cell, standardRule] <;> split_ifs <;>
    simp_all <;> omega

/-- **C1.** `tick()` updates every cell of every well-formed grid by the
standard Game-of-Life transition rule (live ∧ 2-or-3 neighbors → alive;
live ∧ <2 or >3 → dead; dead ∧ exactly 3 → alive; otherwise unchanged), and
a horizontal 3-cell blinker becomes vertical after one tick and returns to
its original form after exactly 2 ticks. -/
theorem tick_standard_rule_and_blinker_period_two :
    (∀ (u : Universe) (row col : Nat),
        u.cells.length = u.width * u.height →
        row < u.height → col < u.width →
        u.tick.cellAt row col
          = standardRule (u.cellAt row col) (u.live_neighbor_count row col))
    ∧ blinkerH.tick = blinkerV
    ∧ blinkerH.tick.tick = blinkerH
    ∧ blinkerH.tick ≠ blinkerH := by
  refine ⟨?_, by decide, by decide, by decide⟩
  intro u row col h hr hc
  rw [tick_eq_tickPure u h, cellAt_tickPure u hr hc, next_cell_eq_standardRule]

/-- Witness for C1: the rule instantiated on the concrete blinker grid at
cell (1, 2), all hypotheses discharged by evaluation. -/
theorem tick_standard_rule_and_blinker_period_two_witness :
    blinkerH.tick.cellAt 1 2
      = standardRule (blinkerH.cellAt 1 2) (blinkerH.live_neighbor_count 1 2) :=
  tick_standard_rule_and_blinker_period_two.1 blinkerH 1 2
    (by decide) (by decide) (by decide)

lemma emod_toNat_natCast (a h : Nat) : (((a : Int)) % (h : Int)).toNat = a % h := by
  rw [← Int.natCast_mod, Int.toNat_natCast]

lemma emod_toNat_add_zero (r h : Nat) :
    (((r : Int) + 0) % (h : Int)).toNat = (r + 0) % h := by
  have h1 : ((r : Int) + 0) = ((r + 0 : Nat) : Int) := by push_cast; ring
  rw [h1, emod_toNat_natCast]

lemma emod_toNat_add_one (r h : Nat) :
    (((r : Int) + 1) % (h : Int)).toNat = (r + 1) % h := by
  have h1 : ((r : Int) + 1) = ((r + 1 : Nat) : Int) := by push_cast; ring
  rw [h1, emod_toNat_natCast]

lemma emod_toNat_sub_one (r h : Nat) (hh : 0 < h) :
    (((r : Int) + (-1)) % (h : Int)).toNat = (r + (h - 1)) % h := by
  have hh' : 1 ≤ h := hh
  have h1 : ((r + (h - 1) : Nat) : Int) = (r : Int) + (-1) + h := by
    push_cast [Nat.cast_sub hh']
    ring
  calc (((r : Int) + (-1)) % (h : Int)).toNat
      = ((((r : Int) + (-1)) + h) % (h : Int)).toNat := by rw [Int.add_emod_self]
    _ = (((r + (h - 1) : Nat) : Int) % (h : Int)).toNat := by rw [h1]
    _ = (r + (h - 1)) % h := emod_toNat_natCast _ _

/-- The integer-arithmetic neighbor positions coincide with the engine's
nonnegative wrap offsets on a grid with positive dimensions. -/
lemma neighborPositionsInt_eq (u : Universe) (row col : Nat)
    (hh : 0 < u.height) (hw : 0 < u.width) :
    neighborPositionsInt u row col
      = u.neighborDeltas.map
          (fun d => ((row + d.1) % u.height, (col + d.2) % u.width)) := by
  simp only [neighborPositionsInt, Universe.neighborDeltas, List.map_cons,
    List.map_nil]
  rw [emod_toNat_sub_one row u.height hh, emod_toNat_sub_one col u.width hw,
    emod_toNat_add_one row u.height, emod_toNat_add_one col u.width,
    emod_toNat_add_zero row u.height, emod_toNat_add_zero col u.width]

lemma live_neighbor_count_eq_int_count (u : Universe) (row col : Nat)
    (hh : 0 < u.height) (hw : 0 < u.width) :
    u.live_neighbor_count row col
      = (neighborPositionsInt u row col).countP
          (fun p => u.cellAt p.1 p.2 == Cell.Alive) := by
  rw [neighborPositionsInt_eq u row col hh hw, List.countP_map]
  rfl

/-- **C2.** The live-neighbor count used by `tick()` is the number of live
cells among the 8 positions `(row ± 1 mod height, col ± 1 mod width)` (in
integer arithmetic), for every position including edges and corners; and on
a 4×4 grid whose only live cell is the far corner (3, 3), the cell at (0, 0)
counts it as a neighbor. -/
theorem live_neighbor_count_is_toroidal :
    (∀ (u : Universe) (row col : Nat), 0 < u.height → 0 < u.width →
        u.live_neighbor_count row col
          = (neighborPositionsInt u row col).countP
              (fun p => u.cellAt p.1 p.2 == Cell.Alive))
    ∧ cornerU.cellAt 3 3 = Cell.Alive
    ∧ cornerU.live_neighbor_count 0 0 = 1 := by
  refine ⟨?_, by decide, by decide⟩
  intro u row col hh hw
  exact live_neighbor_count_eq_int_count u row col hh hw

/-- Witness for C2: the toroidal-count equality instantiated on the concrete
4×4 corner grid at (0, 0). -/
theorem live_neighbor_count_is_toroidal_witness :
    cornerU.live_neighbor_count 0 0
      = (neighborPositionsInt cornerU 0 0).countP
          (fun p => cornerU.cellAt p.1 p.2 == Cell.Alive) :=
  live_neighbor_count_is_toroidal.1 cornerU 0 0 (by decide) (by decide)

/-- **C3.** `tick()` is equivalent to a pure function from generation N to
generation N+1: the double-buffered implementation loop, which writes each
new cell while reading neighbor counts only from the pre-tick snapshot,
produces exactly the reference snapshot semantics `tickPure` on every
well-formed grid. -/
theorem tick_refines_snapshot_semantics (u : Universe)
    (h : u.cells.length = u.width * u.height) :
    u.tick = u.tickPure :=
  tick_eq_tickPure u h

/-- Witness for C3: the refinement instantiated on the concrete blinker grid. -/
theorem tick_refines_snapshot_semantics_witness :
    blinkerH.tick = blinkerH.tickPure :=
  tick_refines_snapshot_semantics blinkerH (by decide)

lemma getD_replicate_dead (n i : Nat) :
    (List.replicate n Cell.Dead).getD i Cell.Dead = Cell.Dead := by
  rw [List.getD_eq_getElem?_getD, List.getElem?_replicate]
  split <;> rfl

lemma cellAt_of_cells_replicate_dead {v : Universe} {n : Nat}
    (hv : v.cells = List.replicate n Cell.Dead) (row col : Nat) :
    v.cellAt row col = Cell.Dead := by
  unfold Universe.cellAt
  rw [hv, getD_replicate_dead]

/-- A tick of an all-dead grid is all dead again. -/
lemma tick_cells_of_all_dead (v : Universe)
    (hv : v.cells = List.replicate (v.width * v.height) Cell.Dead) :
    v.tick.cells = List.replicate (v.width * v.height) Cell.Dead := by
  rw [tick_eq_tickPure v (by rw [hv, List.length_replicate]), tickPure_cells]
  have hcount : ∀ r c : Nat, v.live_neighbor_count r c = 0 := by
    intro r c
    unfold Universe.live_neighbor_count
    simp [cellAt_of_cells_replicate_dead hv]
  have hfun : (fun idx =>
      next_cell (v.cellAt (idx / v.width) (idx % v.width))
        (v.live_neighbor_count (idx / v.width) (idx % v.width)))
      = fun _ : Nat => Cell.Dead := by
    funext idx
    rw [cellAt_of_cells_replicate_dead hv, hcount]
    rfl
  rw [hfun, List.map_const', List.length_range]

lemma iterate_tick_width (v : Universe) (n : Nat) :
    ((Universe.tick)^[n] v).width = v.width := by
  induction n with
  | zero => rfl
  | succ n ih => rw [Function.iterate_succ_apply', tick_width, ih]

lemma iterate_tick_height (v : Universe) (n : Nat) :
    ((Universe.tick)^[n] v).height = v.height := by
  induction n with
  | zero => rfl
  | succ n ih => rw [Function.iterate_succ_apply', tick_height, ih]

/-- **C4.** `clear()` sets every cell to Dead, and the all-dead grid is a
fixed point of `tick`: for every n, `clear()` followed by n ticks leaves the
buffer all Dead (hence every cell Dead). -/
theorem clear_then_ticks_leaves_all_dead (u : Universe) (n : Nat) :
    u.clear.cells = List.replicate (u.width * u.height) Cell.Dead
    ∧ ((Universe.tick)^[n] u.clear).cells
        = List.replicate (u.width * u.height) Cell.Dead
    ∧ ∀ row col : Nat,
        ((Universe.tick)^[n] u.clear).cellAt row col = Cell.Dead := by
  have key : ∀ m : Nat, ((Universe.tick)^[m] u.clear).cells
      = List.replicate (u.width * u.height) Cell.Dead := by
    intro m
    induction m with
    | zero => rfl
    | succ m ih =>
      rw [Function.iterate_succ_apply']
      have hw := iterate_tick_width u.clear m
      have hh := iterate_tick_height u.clear m
      have : ((Universe.tick)^[m] u.clear).cells
          = List.replicate (((Universe.tick)^[m] u.clear).width
              * ((Universe.tick)^[m] u.clear).height) Cell.Dead := by
        rw [hw, hh]
        exact ih
      have h2 := tick_cells_of_all_dead _ this
      rw [h2, hw, hh]
      rfl
  exact ⟨rfl, key n, fun row col => cellAt_of_cells_replicate_dead (key n) row col⟩

lemma set_getD_self {α : Type} (d : α) :
    ∀ (l : List α) (i : Nat), i < l.length → l.set i (l.getD i d) = l := by
  intro l
  induction l with
  | nil => intro i h; simp at h
  | cons a l ih =>
    intro i h
    cases i with
    | zero => rfl
    | succ i =>
      have : l.set i (l.getD i d) = l := ih i (by simpa using h)
      simpa using this

lemma toggled_toggled (c : Cell) : c.toggled.toggled = c := by cases c <;> rfl

lemma getIndex_inj (u : Universe) {row col row' col' : Nat}
    (hc : col < u.width) (hc' : col' < u.width)
    (h : u.getIndex row col = u.getIndex row' col') : row = row' ∧ col = col' := by
  constructor
  · rw [← getIndex_div u row hc, h, getIndex_div u row' hc']
  · rw [← getIndex_mod u row hc, h, getIndex_mod u row' hc']

/-- **C5.** For every well-formed grid and in-range `(row, col)`,
`toggle_cell` succeeds, flips exactly the cell at `(row, col)` between Dead
and Alive, leaves every other cell unchanged, and a second `toggle_cell` at
the same position (no intervening tick) restores the original grid. -/
lemma toggle_cell_in_range (u : Universe) {row col : Nat}
    (hr : row < u.height) (hc : col < u.width) :
    u.toggle_cell row col
      = (Except.ok (),
          { u with cells := u.cells.set (u.getIndex row col) (u.cellAt row col).toggled }) := by
  unfold Universe.toggle_cell
  rw [if_pos ⟨hr, hc⟩]

theorem toggle_cell_flips_exactly_one_cell (u : Universe) (row col : Nat)
    (hlen : u.cells.length = u.width * u.height)
    (hr : row < u.height) (hc : col < u.width) :
    (u.toggle_cell row col).1 = Except.ok ()
    ∧ ((u.toggle_cell row col).2).cellAt row col = (u.cellAt row col).toggled
    ∧ (∀ row' col' : Nat, row' < u.height → col' < u.width →
        (row', col') ≠ (row, col) →
        ((u.toggle_cell row col).2).cellAt row' col' = u.cellAt row' col')
    ∧ (((u.toggle_cell row col).2).toggle_cell row col).2 = u := by
  have hidx : u.getIndex row col < u.cells.length := by
    rw [hlen]; exact getIndex_lt_size u hr hc
  have htc := toggle_cell_in_range u hr hc
  have hsame : ((u.toggle_cell row col).2).cellAt row col = (u.cellAt row col).toggled := by
    rw [htc]
    show (u.cells.set (u.getIndex row col) (u.cellAt row col).toggled).getD
        (u.getIndex row col) Cell.Dead = (u.cellAt row col).toggled
    rw [List.getD_eq_getElem?_getD, List.getElem?_set_self hidx]
    rfl
  refine ⟨by rw [htc], hsame, ?_, ?_⟩
  · intro row' col' hr' hc' hne
    rw [htc]
    show (u.cells.set (u.getIndex row col) (u.cellAt row col).toggled).getD
        (u.getIndex row' col') Cell.Dead = u.cellAt row' col'
    have hne' : u.getIndex row col ≠ u.getIndex row' col' := by
      intro heq
      exact hne (by
        obtain ⟨h1, h2⟩ := getIndex_inj u hc hc' heq
        rw [h1, h2])
    rw [List.getD_eq_getElem?_getD, List.getElem?_set_ne hne']
    unfold Universe.cellAt
    rw [List.getD_eq_getElem?_getD]
  · rw [htc]
    rw [toggle_cell_in_range
      (Universe.mk u.width u.height
        (u.cells.set (u.getIndex row col) (u.cellAt row col).toggled)) hr hc]
    show Universe.mk u.width u.height
        ((u.cells.set (u.getIndex row col) (u.cellAt row col).toggled).set
          (u.getIndex row col)
          ((u.cells.set (u.getIndex row col) (u.cellAt row col).toggled).getD
            (u.getIndex row col) Cell.Dead).toggled)
      = u
    have hmid : (u.cells.set (u.getIndex row col) (u.cellAt row col).toggled).getD
        (u.getIndex row col) Cell.Dead = (u.cellAt row col).toggled := by
      rw [List.getD_eq_getElem?_getD, List.getElem?_set_self hidx]
      rfl
    rw [hmid, toggled_toggled, List.set_set]
    show Universe.mk u.width u.height
        (u.cells.set (u.getIndex row col) (u.cells.getD (u.getIndex row col) Cell.Dead))
      = u
    rw [set_getD_self Cell.Dead u.cells _ hidx]

/-- Witness for C5: toggling (2, 2) of the blinker grid twice restores it. -/
theorem toggle_cell_flips_exactly_one_cell_witness :
    ((blinkerH.toggle_cell 2 2).2.toggle_cell 2 2).2 = blinkerH :=
  (toggle_cell_flips_exactly_one_cell blinkerH 2 2
    (by decide) (by decide) (by decide)).2.2.2

/-- **C6.** `toggle_cell` called with `row ≥ height` or `col ≥ width` fails
with `IndexOutOfBounds` and returns the grid unmodified. -/
theorem toggle_cell_out_of_range_rejected (u : Universe) (row col : Nat)
    (h : u.height ≤ row ∨ u.width ≤ col) :
    u.toggle_cell row col = (Except.error GolError.IndexOutOfBounds, u) := by
  unfold Universe.toggle_cell
  rw [if_neg]
  intro hcon
  rcases h with h | h
  · exact absurd hcon.1 (Nat.not_lt.mpr h)
  · exact absurd hcon.2 (Nat.not_lt.mpr h)

/-- Witness for C6: toggling row 4 of the 4×4 corner grid is rejected and
the grid is returned untouched. -/
theorem toggle_cell_out_of_range_rejected_witness :
    cornerU.toggle_cell 4 0 = (Except.error GolError.IndexOutOfBounds, cornerU) :=
  toggle_cell_out_of_range_rejected cornerU 4 0 (by decide)

/-! ### Claims about the JavaScript frontend -/

/-- Counterexample to C7 as stated: the click handler does NOT clamp below.
A canvas-pixel y coordinate of −7 (possible for synthetic or edge-dispatched
click events) yields row `⌊−7/6⌋ = −2`, and `Math.min(−2, height−1) = −2`,
which lies outside `[0, height−1]`; no `Math.max` with 0 is applied. -/
theorem click_row_not_clamped_below :
    clickRow 64 (-7) = -2 ∧ clickRow 64 (-7) < 0 := by
  have hfl : ⌊(-7 : ℚ) / ((CELL_SIZE : ℚ) + 1)⌋ = -2 := by
    rw [Int.floor_eq_iff]
    norm_num [CELL_SIZE]
  have h2 : clickRow 64 (-7) = -2 := by
    unfold clickRow
    rw [hfl, min_eq_left (by norm_num)]
  exact ⟨h2, by rw [h2]; norm_num⟩

/-- **C7 (amended).** The click handler converts canvas-pixel coordinates to
grid coordinates by dividing by `CELL_SIZE + 1` and flooring, then clamps
only from above, at `height − 1` / `width − 1` via `Math.min`; no clamp at 0
is applied, but whenever the pixel coordinates are nonnegative the resulting
`(row, col)` does lie in `[0, height−1] × [0, width−1]`. -/
theorem click_to_cell_floor_and_upper_clamp (height width : Nat) (top left : ℚ)
    (hh : 0 < height) (hw : 0 < width) :
    clickRow height top = min ⌊top / ((CELL_SIZE : ℚ) + 1)⌋ ((height : Int) - 1)
    ∧ clickCol width left = min ⌊left / ((CELL_SIZE : ℚ) + 1)⌋ ((width : Int) - 1)
    ∧ clickRow height top ≤ (height : Int) - 1
    ∧ clickCol width left ≤ (width : Int) - 1
    ∧ (0 ≤ top → 0 ≤ clickRow height top)
    ∧ (0 ≤ left → 0 ≤ clickCol width left) := by
  refine ⟨rfl, rfl, min_le_right _ _, min_le_right _ _, ?_, ?_⟩
  · intro htop
    refine le_min (Int.floor_nonneg.2 (div_nonneg htop (by norm_num [CELL_SIZE])))
      (by omega)
  · intro hleft
    refine le_min (Int.floor_nonneg.2 (div_nonneg hleft (by norm_num [CELL_SIZE])))
      (by omega)

/-- Witness for C7 (amended): a click at canvas pixel (13, 7) on a 64×64
grid lands in the valid index range. -/
theorem click_to_cell_floor_and_upper_clamp_witness :
    0 ≤ clickRow 64 7 ∧ 0 ≤ clickCol 64 13 :=
  ⟨(click_to_cell_floor_and_upper_clamp 64 64 7 13 (by decide) (by decide)).2.2.2.2.1
      (by norm_num),
   (click_to_cell_floor_and_upper_clamp 64 64 7 13 (by decide) (by decide)).2.2.2.2.2
      (by norm_num)⟩

/-- **C8.** The speed control is inverted and monotone: the delay slept
between successive ticks is `MAX_SPEED − sliderValue`, so a larger slider
value gives a strictly shorter delay. -/
theorem speed_slider_inverted_and_monotone :
    (∀ v : ℚ, speedOf v = MAX_SPEED - v)
    ∧ ∀ a b : ℚ, b < a → speedOf a < speedOf b := by
  refine ⟨fun v => rfl, fun a b hab => ?_⟩
  unfold speedOf
  linarith

/-- Witness for C8: slider value 300 sleeps strictly less than value 200. -/
theorem speed_slider_inverted_and_monotone_witness :
    speedOf 300 < speedOf 200 :=
  speed_slider_inverted_and_monotone.2 300 200 (by norm_num)

/-- **C9** fails on the code: a concrete event-loop run in which a tick
executes after the pause handler has run, with no intervening play.  From
start-up (`play()` ran, first `sleep` pending, `animationId` still null): a
button click reads `isPaused() = true` (`animationId === null`) and starts a
second loop; both sleep continuations then resolve, queueing rAF callbacks
0 and 1 and leaving `animationId = 1`; a second button click runs `pause()`,
which cancels only id 1.  The still-queued callback 0 then fires and
`renderLoop` calls `universe.tick()` although `paused` is already set:
ticks go from 2 to 3 after the pause was observed. -/
theorem pause_leaves_a_queued_raf_that_still_ticks :
    runEvents initLoopState
        [LoopEvent.buttonClick, LoopEvent.sleepDone, LoopEvent.sleepDone,
          LoopEvent.buttonClick]
      = some (LoopState.mk true none [0] 0 2 2)
    ∧ stepEvent (LoopState.mk true none [0] 0 2 2) (LoopEvent.rafFire 0)
        = some (LoopState.mk true none [] 1 2 3)
    ∧ (LoopState.mk true none [0] 0 2 2).paused = true
    ∧ (LoopState.mk true none [] 1 2 3).ticks
        = (LoopState.mk true none [0] 0 2 2).ticks + 1 :=
  ⟨by decide, by decide, rfl, rfl⟩

lemma mem_paintCellsFills {s : Nat} {cells : List Nat} {h w row col : Nat} :
    (row, col) ∈ paintCellsFills s cells h w
      ↔ row < h ∧ col < w ∧ cells[row * w + col]? = some s := by
  simp only [paintCellsFills, List.mem_flatMap, List.mem_filterMap, List.mem_range,
    Option.ite_none_right_eq_some, Option.some.injEq, Prod.mk.injEq, beq_iff_eq]
  constructor
  · rintro ⟨a, ha, b, hb, hcell, rfl, rfl⟩
    exact ⟨ha, hb, hcell⟩
  · rintro ⟨ha, hb, hcell⟩
    exact ⟨row, ha, col, hb, hcell, rfl, rfl⟩

lemma nodup_paintCellsFills (s : Nat) (cells : List Nat) (h w : Nat) :
    (paintCellsFills s cells h w).Nodup := by
  unfold paintCellsFills
  refine List.nodup_flatMap.2 ⟨?_, ?_⟩
  · intro row _
    refine List.Nodup.filterMap ?_ (List.nodup_range _)
    intro a a' b hb hb'
    simp only [Option.mem_def, Option.ite_none_right_eq_some, Option.some.injEq,
      beq_iff_eq] at hb hb'
    obtain ⟨_, rfl⟩ := hb
    obtain ⟨_, h2⟩ := hb'
    injection h2 with h3 h4
    exact h4.symm
  · refine List.Pairwise.imp ?_ (List.pairwise_lt_range _)
    intro r1 r2 hlt x hx1 hx2
    obtain ⟨c1, _, hc1⟩ := List.mem_filterMap.1 hx1
    obtain ⟨c2, _, hc2⟩ := List.mem_filterMap.1 hx2
    simp only [Option.ite_none_right_eq_some, Option.some.injEq, beq_iff_eq] at hc1 hc2
    obtain ⟨_, rfl⟩ := hc1
    obtain ⟨_, h2⟩ := hc2
    injection h2 with h3 h4
    omega

lemma count_eq_one_of_nodup_mem {α : Type} [BEq α] [LawfulBEq α] {p : α}
    {l : List α} (hn : l.Nodup) (hm : p ∈ l) : l.count p = 1 := by
  induction l with
  | nil => cases hm
  | cons a l ih =>
    rw [List.count_cons]
    rcases List.mem_cons.1 hm with rfl | hm'
    · rw [List.count_eq_zero.2 (List.nodup_cons.1 hn).1]
      simp
    · rw [ih (List.nodup_cons.1 hn).2 hm']
      have hne : ¬ p = a := fun h => (List.nodup_cons.1 hn).1 (h ▸ hm')
      have hne' : ¬ a = p := fun h => hne h.symm
      simp [hne']

lemma count_paintCellsFills (s : Nat) (cells : List Nat) (h w row col : Nat) :
    (paintCellsFills s cells h w).count (row, col)
      = if row < h ∧ col < w ∧ cells[row * w + col]? = some s then 1 else 0 := by
  by_cases hcond : row < h ∧ col < w ∧ cells[row * w + col]? = some s
  · rw [if_pos hcond]
    exact count_eq_one_of_nodup_mem (nodup_paintCellsFills s cells h w)
      (mem_paintCellsFills.2 hcond)
  · rw [if_neg hcond, List.count_eq_zero]
    intro hm
    exact hcond (mem_paintCellsFills.1 hm)

/-- **C10.** One redraw fills each cell's rectangle exactly once: the
dead-color pass fills `(row, col)` iff its buffer byte equals `Cell.Dead`,
the alive-color pass iff it equals `Cell.Alive`, the passes are disjoint,
and a byte equal to neither constant is filled by neither pass (count 0, so
the cell keeps its previously drawn pixels). -/
theorem redraw_fills_each_cell_exactly_once (cells : List Nat)
    (height width row col : Nat) (hr : row < height) (hc : col < width) :
    ((row, col) ∈ paintCellsFills cellDeadCode cells height width
        ↔ cells[row * width + col]? = some cellDeadCode)
    ∧ ((row, col) ∈ paintCellsFills cellAliveCode cells height width
        ↔ cells[row * width + col]? = some cellAliveCode)
    ∧ ¬((row, col) ∈ paintCellsFills cellDeadCode cells height width
        ∧ (row, col) ∈ paintCellsFills cellAliveCode cells height width)
    ∧ (drawCellsFills cells height width).count (row, col)
        = (if cells[row * width + col]? = some cellDeadCode
              ∨ cells[row * width + col]? = some cellAliveCode
            then 1 else 0) := by
  refine ⟨?_, ?_, ?_, ?_⟩
  · rw [@mem_paintCellsFills cellDeadCode cells height width row col]
    simp [hr, hc]
  · rw [@mem_paintCellsFills cellAliveCode cells height width row col]
    simp [hr, hc]
  · rintro ⟨h1, h2⟩
    rw [@mem_paintCellsFills cellDeadCode cells height width row col] at h1
    rw [@mem_paintCellsFills cellAliveCode cells height width row col] at h2
    have e1 := h1.2.2
    have e2 := h2.2.2
    rw [e1] at e2
    simp [cellDeadCode, cellAliveCode] at e2
  · unfold drawCellsFills
    rw [List.count_append, count_paintCellsFills, count_paintCellsFills]
    by_cases h0 : cells[row * width + col]? = some cellDeadCode
      <;> by_cases h1 : cells[row * width + col]? = some cellAliveCode
      <;> simp_all [cellDeadCode, cellAliveCode]

/-- Witness for C10: on the 2×2 buffer `[0, 1, 5, 0]` the redraw fills cell
(0, 1) (byte 1, alive pass) exactly once. -/
theorem redraw_fills_each_cell_exactly_once_witness :
    (drawCellsFills [0, 1, 5, 0] 2 2).count (0, 1)
      = (if ([0, 1, 5, 0] : List Nat)[0 * 2 + 1]? = some cellDeadCode
            ∨ ([0, 1, 5, 0] : List Nat)[0 * 2 + 1]? = some cellAliveCode
          then 1 else 0) :=
  (redraw_fills_each_cell_exactly_once [0, 1, 5, 0] 2 2 0 1
    (by decide) (by decide)).2.2.2

end GoL
